import Mathlib

/-!
Shallow embedding of the agoraX_server socket event handlers
(`src/api/index.ts`): the in-memory Connection Registry (`onlineUsers`),
the Room Membership Table (`rooms`), and the handlers for the
`connection`, `newUser`, `joinRoom`, `leaveRoom`, `sendMessage` and
`disconnect` events.  JavaScript arrays become Lean lists, the `rooms`
record becomes an association list keyed by room id in insertion order
(JS object keys are unique and iterate in insertion order), and the
socket.io broadcasts become explicit return values.  Fields that may
arrive as `undefined` from a destructured payload are `Option String`;
a value used as an object key is coerced the way JavaScript coerces it
(`undefined` stringifies to "undefined").  External effects that the
handlers only log (the best-effort backend persist, the transcript
append callback) are modelled by a boolean failure flag that influences
only the log output.
-/

/-- One entry of the global `onlineUsers` array: `{ socketId, userId }`. -/
structure PresenceEntry where
  socketId : String
  userId : String
deriving DecidableEq, Repr

/-- One entry of a room's member array: `{ socketId, username }`.
`username` is `Option String` because the `joinRoom` payload may omit it
(JavaScript stores `undefined` in the object unchanged). -/
structure RoomMember where
  socketId : String
  username : Option String
deriving DecidableEq, Repr

/-- The `rooms` record: room id to member array, keys in insertion order. -/
abbrev RoomTable := List (String × List RoomMember)

/-- First-match lookup of a key in the `rooms` record. -/
def getRoom : RoomTable → String → Option (List RoomMember)
  | [], _ => none
  | (k, v) :: t, r => if k = r then some v else getRoom t r

/-- JavaScript assignment `rooms[r] = l`: overwrite the value at an existing
key, otherwise append the new key at the end of the insertion order. -/
def setRoomList : RoomTable → String → List RoomMember → RoomTable
  | [], r, l => [(r, l)]
  | (k, v) :: t, r, l => if k = r then (r, l) :: t else (k, v) :: setRoomList t r l

/-- JavaScript string coercion of a possibly-`undefined` value used as an
object key: `undefined` becomes the string "undefined". -/
def jsKey : Option String → String
  | none => "undefined"
  | some s => s

/-- Result of the `joinRoom` handler: the updated `rooms` table, the
`roomUsers` broadcast (room scope and payload), and the warnings logged. -/
structure JoinResult where
  table : RoomTable
  broadcast : Option (String × List RoomMember)
  logs : List String
deriving DecidableEq, Repr

/-- The `joinRoom` handler (src/api/index.ts:48-82).  No validation is
performed on the payload: `socket.join(roomId)` is the transport-layer
subscription, then `if (!rooms[roomId]) rooms[roomId] = []` followed by
`rooms[roomId].push({socketId, username})` and
`io.to(roomId).emit("roomUsers", rooms[roomId])`.  The best-effort backend
persist is inside its own try/catch and only ever logs, modelled by
`persistFails`; the outer try/catch means the handler never throws. -/
def joinRoom (t : RoomTable) (sid : String) (roomId username : Option String)
    (persistFails : Bool) : JoinResult :=
  let key := jsKey roomId
  let newList := ((getRoom t key).getD []) ++ [⟨sid, username⟩]
  { table := setRoomList t key newList
    broadcast := some (key, newList)
    logs := if persistFails then ["[chat] failed to persist participant to backend"] else [] }

/-- The `leaveRoom` handler (src/api/index.ts:87-96).  `socket.leave` is
transport-layer; then only `if (rooms[roomId])` (key present — arrays are
always truthy) filters the member list and emits the updated list.  For an
unknown room nothing happens and nothing is emitted. -/
def leaveRoom (t : RoomTable) (sid : String) (roomId : String) :
    RoomTable × Option (String × List RoomMember) :=
  match getRoom t roomId with
  | some l =>
      let l' := l.filter (fun m => m.socketId ≠ sid)
      (setRoomList t roomId l', some (roomId, l'))
  | none => (t, none)

/-- The `newUser` handler (src/api/index.ts:31-43): `if (!userId) return;`
then `findIndex` on `socketId`, overwrite `userId` in place if found, push
a new entry otherwise, and emit the full `usersOnline` list.  Returns the
updated registry and the optional broadcast payload. -/
def newUser (users : List PresenceEntry) (sid userId : String) :
    List PresenceEntry × Option (List PresenceEntry) :=
  if userId = "" then (users, none)
  else
    match users.findIdx? (fun u => u.socketId == sid) with
    | some i =>
        let users' := users.set i ⟨sid, userId⟩
        (users', some users')
    | none =>
        let users' := users ++ [⟨sid, userId⟩]
        (users', some users')

/-- The `connection` handler's registry effect (src/api/index.ts:25):
`onlineUsers.push({ socketId, userId: "" })`. -/
def connectUser (users : List PresenceEntry) (sid : String) : List PresenceEntry :=
  users ++ [⟨sid, ""⟩]

/-- The `disconnect` handler's registry effect (src/api/index.ts:149):
`onlineUsers = onlineUsers.filter(u => u.socketId !== socket.id)`. -/
def disconnectUser (users : List PresenceEntry) (sid : String) : List PresenceEntry :=
  users.filter (fun u => u.socketId ≠ sid)

/-- The `disconnect` handler's room effect (src/api/index.ts:143-146):
`for (const roomId in rooms)` filter the member list and emit it — one
`roomUsers` broadcast per key of the table, in key order.  Returns the new
table and the list of broadcasts (room scope, payload). -/
def disconnectRooms (t : RoomTable) (sid : String) :
    RoomTable × List (String × List RoomMember) :=
  let t' := t.map (fun p => (p.1, p.2.filter (fun m => m.socketId ≠ sid)))
  (t', t')

/-- A connect or disconnect event, for registry lifecycle claims. -/
inductive ConnEvent where
  | connect (sid : String)
  | disconnect (sid : String)
deriving DecidableEq, Repr

/-- Registry effect of one connect/disconnect event. -/
def stepUsers (users : List PresenceEntry) : ConnEvent → List PresenceEntry
  | .connect sid => connectUser users sid
  | .disconnect sid => disconnectUser users sid

/-- Run a sequence of connect/disconnect events against the registry. -/
def runUsers (users : List PresenceEntry) (evs : List ConnEvent) : List PresenceEntry :=
  evs.foldl stepUsers users

/-- Whether connection `c` is still connected after `evs`, starting from
connected-status `b`: a connect of `c` sets it, a disconnect of `c` clears
it, events of other connections leave it alone. -/
def liveAfter (c : String) (b : Bool) (evs : List ConnEvent) : Bool :=
  evs.foldl
    (fun b e =>
      match e with
      | .connect d => if d = c then true else b
      | .disconnect d => if d = c then false else b) b

/-- Whether the registry holds an entry for socket id `c`. -/
def hasEntry (c : String) (users : List PresenceEntry) : Bool :=
  users.any (fun u => u.socketId = c)

/-- A JavaScript object value appearing in an emitted payload. -/
inductive JVal where
  | s (v : String)
  | n (v : Nat)
deriving DecidableEq, Repr

/-- The characters the transcript sanitizer keeps: the regex class
`[a-zA-Z0-9-_]` of `src/api/index.ts:125-126`. -/
def isSafeChar (c : Char) : Bool :=
  ('a' ≤ c && c ≤ 'z') || ('A' ≤ c && c ≤ 'Z') || ('0' ≤ c && c ≤ '9')
    || c = '-' || c = '_'

/-- `String(x).replace(/[^a-zA-Z0-9-_]/g, '_')`: every character outside the
safe class is replaced by an underscore, character by character. -/
def sanitize (s : String) : String :=
  String.mk (s.data.map (fun c => if isSafeChar c then c else '_'))

/-- Result of the `sendMessage` handler: the `message` broadcast (room
scope and payload as the ordered key/value pairs of the emitted object),
the transcript file name and entry line, and the warnings logged. -/
structure SendResult where
  room : String
  payload : List (String × JVal)
  transcriptFile : String
  transcriptEntry : String
  logs : List String
deriving DecidableEq, Repr

/-- The `sendMessage` handler (src/api/index.ts:101-134).  `fid` is the
value `crypto.randomUUID()` returned, `now` the broadcast timestamp
(`new Date()`), `nowIso` the transcript timestamp
(`new Date().toISOString()`).  The emitted object is
`{id, user, text, timestamp}` in that key order.  The transcript file is
`transcript-<safeRoom>-<safeUser>.txt` with the empty-string fallbacks
`'global'` / `'unknown'` of `user || 'unknown'`, `roomId || 'global'`;
the entry line is `[<iso>] (chat) <user>: <text>\n`.  The append callback
and the surrounding try/catch only log on failure (`appendFails`),
which cannot reach the broadcast. -/
def sendMessage (fid : String) (now : Nat) (nowIso : String)
    (roomId user text : String) (appendFails : Bool) : SendResult :=
  let safeUser := sanitize (if user = "" then "unknown" else user)
  let safeRoom := sanitize (if roomId = "" then "global" else roomId)
  { room := roomId
    payload := [("id", .s fid), ("user", .s user), ("text", .s text), ("timestamp", .n now)]
    transcriptFile := "transcript-" ++ safeRoom ++ "-" ++ safeUser ++ ".txt"
    transcriptEntry := "[" ++ nowIso ++ "] (chat) " ++ user ++ ": " ++ text ++ "\n"
    logs := if appendFails then ["Failed to append chat to transcript"] else [] }

/-- Iterate `joinRoom` for the same connection, room and name `n` times
(table effect only). -/
def joinN (n : Nat) (t : RoomTable) (sid r name : String) : RoomTable :=
  match n with
  | 0 => t
  | n + 1 => joinN n (joinRoom t sid (some r) (some name) false).table sid r name

/-- Number of entries for socket id `c` in an optional member list. -/
def countSid (c : String) (o : Option (List RoomMember)) : Nat :=
  (o.getD []).countP (fun m => m.socketId = c)

/-- The registry update described by the spec's words for `identify`:
overwrite the `userId` of the first entry for `sid` when one exists,
append a new entry otherwise.  Used to compare `newUser` against the
claim's description. -/
def overwriteFirstOrInsert (users : List PresenceEntry) (sid userId : String) :
    List PresenceEntry :=
  match users with
  | [] => [⟨sid, userId⟩]
  | u :: t =>
      if u.socketId = sid then ⟨u.socketId, userId⟩ :: t
      else u :: overwriteFirstOrInsert t sid userId

/-- A deterministic stand-in for the platform's `crypto.randomUUID` source:
call number `n` yields a non-empty string, and distinct calls yield distinct
strings.  Used only to instantiate the generator hypotheses of the
message-relay claim at a concrete input. -/
def uuidModel (n : Nat) : String :=
  String.mk (List.replicate (n + 1) 'u')

/-! ### Association-list lemmas for the `rooms` record -/

theorem getRoom_setRoomList_self (t : RoomTable) (r : String) (l : List RoomMember) :
    getRoom (setRoomList t r l) r = some l := by
  induction t with
  | nil => simp [setRoomList, getRoom]
  | cons p t ih =>
      obtain ⟨k, v⟩ := p
      by_cases h : k = r
      · simp [setRoomList, getRoom, h]
      · simp [setRoomList, getRoom, h, ih]

theorem setRoomList_eq_self (t : RoomTable) (r : String) (l : List RoomMember)
    (h : getRoom t r = some l) : setRoomList t r l = t := by
  induction t with
  | nil => simp [getRoom] at h
  | cons p t ih =>
      obtain ⟨k, v⟩ := p
      by_cases hk : k = r
      · simp only [getRoom, if_pos hk, Option.some.injEq] at h
        simp [setRoomList, hk, h]
      · simp only [getRoom, if_neg hk] at h
        simp [setRoomList, hk, ih h]

theorem getRoom_disconnectRooms (t : RoomTable) (sid r : String) :
    getRoom (disconnectRooms t sid).1 r
      = (getRoom t r).map (fun l => l.filter (fun m => m.socketId ≠ sid)) := by
  induction t with
  | nil => simp [disconnectRooms, getRoom]
  | cons p t ih =>
      by_cases h : p.1 = r
      · simp [disconnectRooms, getRoom, h]
      · simpa [disconnectRooms, getRoom, h] using ih

theorem mem_keys_of_getRoom (t : RoomTable) (r : String) (l : List RoomMember)
    (h : getRoom t r = some l) : r ∈ t.map Prod.fst := by
  induction t with
  | nil => simp [getRoom] at h
  | cons p t ih =>
      by_cases hk : p.1 = r
      · simp [hk]
      · simp only [getRoom, if_neg hk] at h
        simp [ih h]

/-! ### Behavioural lemmas for `leaveRoom` -/

theorem leaveRoom_no_sid (t : RoomTable) (sid r : String) :
    ∀ l, getRoom (leaveRoom t sid r).1 r = some l → ∀ m ∈ l, m.socketId ≠ sid := by
  intro l hl m hm
  cases h : getRoom t r with
  | none =>
      rw [leaveRoom, h] at hl
      simp only at hl
      rw [h] at hl
      cases hl
  | some l0 =>
      rw [leaveRoom, h] at hl
      simp only [getRoom_setRoomList_self, Option.some.injEq] at hl
      subst hl
      have := List.of_mem_filter hm
      simpa using this

theorem leaveRoom_noop (t : RoomTable) (sid r : String)
    (h : ∀ l, getRoom t r = some l → ∀ m ∈ l, m.socketId ≠ sid) :
    (leaveRoom t sid r).1 = t := by
  cases hg : getRoom t r with
  | none => simp [leaveRoom, hg]
  | some l =>
      have hfilter : l.filter (fun m => m.socketId ≠ sid) = l := by
        rw [List.filter_eq_self]
        intro m hm
        simpa using h l hg m hm
      rw [leaveRoom, hg]
      simp only [hfilter]
      exact setRoomList_eq_self t r l hg

/-! ### Claim theorems -/

/-- C1 counterexample: a join with an empty `roomId` is not a silent no-op —
starting from an empty table it mutates the Room Membership Table (a member
entry appears under the empty-string key) and a `roomUsers` broadcast is
emitted. -/
theorem C1_counterexample :
    (joinRoom [] "s1" (some "") (some "Alice") false).table ≠ []
    ∧ (joinRoom [] "s1" (some "") (some "Alice") false).broadcast ≠ none := by
  decide

/-- C1 (amended): the `joinRoom` handler performs no validation of `roomId`
or `displayName` — for every payload, including a missing or empty `roomId`
or `username`, it appends a `{socketId, username}` entry to the member list
of the JavaScript-coerced room key, emits a `roomUsers` broadcast carrying
the post-append list, and the table always differs from the pre-join table
(never a no-op); the try/catch means the handler never throws. -/
theorem C1_join_never_noop (t : RoomTable) (sid : String)
    (roomId username : Option String) (pf : Bool) :
    (joinRoom t sid roomId username pf).table
      = setRoomList t (jsKey roomId)
          (((getRoom t (jsKey roomId)).getD []) ++ [⟨sid, username⟩])
    ∧ (joinRoom t sid roomId username pf).broadcast
      = some (jsKey roomId, ((getRoom t (jsKey roomId)).getD []) ++ [⟨sid, username⟩])
    ∧ getRoom (joinRoom t sid roomId username pf).table (jsKey roomId)
      = some (((getRoom t (jsKey roomId)).getD []) ++ [⟨sid, username⟩])
    ∧ (joinRoom t sid roomId username pf).table ≠ t := by
  refine ⟨rfl, rfl, getRoom_setRoomList_self t (jsKey roomId) _, ?_⟩
  intro heq
  have hnew : getRoom (joinRoom t sid roomId username pf).table (jsKey roomId)
      = some (((getRoom t (jsKey roomId)).getD []) ++ [⟨sid, username⟩]) :=
    getRoom_setRoomList_self t (jsKey roomId) _
  rw [heq] at hnew
  cases hold : getRoom t (jsKey roomId) with
  | none => rw [hold] at hnew; simp at hnew
  | some l =>
      rw [hold] at hnew
      simp only [Option.getD_some, Option.some.injEq] at hnew
      have := congrArg List.length hnew
      simp at this

/-- C2 counterexample: a leave for a room id that is not a key of the table
emits no `roomUsers` broadcast at all — in particular not one carrying an
empty member list. -/
theorem C2_counterexample :
    (leaveRoom [] "s1" "r").2 = none
    ∧ (leaveRoom [] "s1" "r").2 ≠ some ("r", []) := by
  decide

/-- C2 (amended): a leave whose `roomId` is not a key of the Room Membership
Table is a complete no-op — the table is unchanged and no `roomUsers`
broadcast is emitted (the guard `if (rooms[roomId])` skips the whole body). -/
theorem C2_unknown_room_leave_noop (t : RoomTable) (sid r : String)
    (h : getRoom t r = none) : leaveRoom t sid r = (t, none) := by
  simp [leaveRoom, h]

/-- C2 witness: the amended no-op at a concrete unknown room. -/
theorem C2_witness : leaveRoom [] "s1" "r" = ([], none) :=
  C2_unknown_room_leave_noop [] "s1" "r" rfl

/-- C6: after `join(c, r, name)` then `leave(c, r)` room `r` has no entry
for `c`; a second leave changes nothing; and a leave for a connection with
no entry in `r` changes nothing (idempotence). -/
theorem C6_leave_after_join (t : RoomTable) (sid r name : String) :
    (∀ l, getRoom (leaveRoom (joinRoom t sid (some r) (some name) false).table sid r).1 r
        = some l → ∀ m ∈ l, m.socketId ≠ sid)
    ∧ (leaveRoom (leaveRoom (joinRoom t sid (some r) (some name) false).table sid r).1 sid r).1
      = (leaveRoom (joinRoom t sid (some r) (some name) false).table sid r).1
    ∧ ∀ t' : RoomTable, (∀ l, getRoom t' r = some l → ∀ m ∈ l, m.socketId ≠ sid) →
        (leaveRoom t' sid r).1 = t' := by
  refine ⟨leaveRoom_no_sid _ sid r, ?_, fun t' h => leaveRoom_noop t' sid r h⟩
  exact leaveRoom_noop _ sid r (leaveRoom_no_sid _ sid r)

/-- C6 witness: the join-then-leave laws at a concrete table. -/
theorem C6_witness :
    (leaveRoom (leaveRoom (joinRoom [] "s" (some "r") (some "A") false).table "s" "r").1 "s" "r").1
      = (leaveRoom (joinRoom [] "s" (some "r") (some "A") false).table "s" "r").1
    ∧ (leaveRoom [("r", [⟨"x", some "B"⟩])] "s" "r").1 = [("r", [⟨"x", some "B"⟩])] :=
  ⟨(C6_leave_after_join [] "s" "r" "A").2.1,
   (C6_leave_after_join [("r", [⟨"x", some "B"⟩])] "s" "r" "A").2.2
     [("r", [⟨"x", some "B"⟩])] (by intro l h m hm; simp [getRoom] at h; subst h; simp at hm; simp [hm])⟩

/-- One join adds exactly one entry for the joining socket id to room `r`. -/
theorem countSid_join_step (t : RoomTable) (sid r name : String) :
    countSid sid (getRoom (joinRoom t sid (some r) (some name) false).table r)
      = countSid sid (getRoom t r) + 1 := by
  have h : getRoom (joinRoom t sid (some r) (some name) false).table r
      = some (((getRoom t r).getD []) ++ [⟨sid, some name⟩]) :=
    getRoom_setRoomList_self t r _
  rw [countSid, h]
  simp [countSid, List.countP_append, List.countP_cons]

/-- `n` repeated joins add exactly `n` entries for the joining socket id. -/
theorem countSid_joinN (sid r name : String) :
    ∀ (n : Nat) (t : RoomTable),
      countSid sid (getRoom (joinN n t sid r name) r) = countSid sid (getRoom t r) + n := by
  intro n
  induction n with
  | zero => intro t; simp [joinN]
  | succ n ih =>
      intro t
      rw [joinN, ih, countSid_join_step]
      omega

/-- C7: each `join(c, r, name)` appends one `{connectionId, displayName}`
entry at the end of room `r`'s member list (insertion order kept, no dedup,
no sort), the `roomUsers` broadcast carries exactly the post-append list,
and `n` repeated joins of the same connection yield `n` additional entries. -/
theorem C7_join_appends_no_dedup (t : RoomTable) (sid r name : String) (pf : Bool) :
    (joinRoom t sid (some r) (some name) pf).table
      = setRoomList t r (((getRoom t r).getD []) ++ [⟨sid, some name⟩])
    ∧ getRoom (joinRoom t sid (some r) (some name) pf).table r
      = some (((getRoom t r).getD []) ++ [⟨sid, some name⟩])
    ∧ (joinRoom t sid (some r) (some name) pf).broadcast
      = some (r, ((getRoom t r).getD []) ++ [⟨sid, some name⟩])
    ∧ ∀ n : Nat, countSid sid (getRoom (joinN n t sid r name) r)
        = countSid sid (getRoom t r) + n :=
  ⟨rfl, getRoom_setRoomList_self t r _, rfl, fun n => countSid_joinN sid r name n t⟩

/-- C10: the disconnect handler emits one `roomUsers` broadcast per key of
the Room Membership Table, in key order — every room currently in the table
receives exactly one broadcast, whether or not the disconnecting connection
was a member and whether or not its member list was already empty — and
each broadcast carries that room's post-removal member list. -/
theorem C10_disconnect_broadcasts_every_room (t : RoomTable) (sid : String) :
    ((disconnectRooms t sid).2).map Prod.fst = t.map Prod.fst
    ∧ (disconnectRooms t sid).2 = (disconnectRooms t sid).1 := by
  constructor
  · simp [disconnectRooms]
  · rfl

/-- The disconnect broadcasts are keyed exactly by the table's keys. -/
theorem disconnectRooms_keys (t : RoomTable) (sid : String) :
    ((disconnectRooms t sid).2).map Prod.fst = t.map Prod.fst := by
  simp [disconnectRooms]

/-- After a disconnect no room of the table retains an entry for the
disconnected socket id. -/
theorem disconnectRooms_no_sid (t : RoomTable) (sid : String) :
    ∀ r l, getRoom (disconnectRooms t sid).1 r = some l → ∀ m ∈ l, m.socketId ≠ sid := by
  intro r l hl m hm
  rw [getRoom_disconnectRooms] at hl
  cases h : getRoom t r with
  | none => rw [h] at hl; cases hl
  | some l0 =>
      rw [h] at hl
      simp only [Option.map_some', Option.some.injEq] at hl
      subst hl
      have := List.of_mem_filter hm
      simpa using this

/-- C4: disconnecting a connection that is a member of two distinct rooms
`A` and `B` (and of no other room) removes its membership entries from every
room of the table — in particular from both `A` and `B` — and the handler
emits exactly one `roomUsers` broadcast for `A` and exactly one for `B`. -/
theorem C4_disconnect_two_rooms (t : RoomTable) (sid A B : String)
    (la lb : List RoomMember)
    (hnd : (t.map Prod.fst).Nodup) (hAB : A ≠ B)
    (hA : getRoom t A = some la) (hAc : ∃ m ∈ la, m.socketId = sid)
    (hB : getRoom t B = some lb) (hBc : ∃ m ∈ lb, m.socketId = sid)
    (honly : ∀ p ∈ t, p.1 ≠ A → p.1 ≠ B → ∀ m ∈ p.2, m.socketId ≠ sid) :
    (∀ r l, getRoom (disconnectRooms t sid).1 r = some l → ∀ m ∈ l, m.socketId ≠ sid)
    ∧ (((disconnectRooms t sid).2).map Prod.fst).count A = 1
    ∧ (((disconnectRooms t sid).2).map Prod.fst).count B = 1 := by
  refine ⟨disconnectRooms_no_sid t sid, ?_, ?_⟩
  · rw [disconnectRooms_keys]
    exact List.count_eq_one_of_mem hnd (mem_keys_of_getRoom t A la hA)
  · rw [disconnectRooms_keys]
    exact List.count_eq_one_of_mem hnd (mem_keys_of_getRoom t B lb hB)

/-- C4 witness: a concrete table where the disconnecting socket is a member
of exactly the rooms "A" and "B" while a third room "C" is untouched. -/
theorem C4_witness :
    ((((disconnectRooms [("A", [⟨"s", some "n"⟩]), ("B", [⟨"s", some "n"⟩, ⟨"x", some "y"⟩]),
        ("C", [⟨"x", some "y"⟩])] "s").2).map Prod.fst).count "A" = 1)
    ∧ ((((disconnectRooms [("A", [⟨"s", some "n"⟩]), ("B", [⟨"s", some "n"⟩, ⟨"x", some "y"⟩]),
        ("C", [⟨"x", some "y"⟩])] "s").2).map Prod.fst).count "B" = 1) :=
  ⟨(C4_disconnect_two_rooms
      [("A", [⟨"s", some "n"⟩]), ("B", [⟨"s", some "n"⟩, ⟨"x", some "y"⟩]),
        ("C", [⟨"x", some "y"⟩])] "s" "A" "B"
      [⟨"s", some "n"⟩] [⟨"s", some "n"⟩, ⟨"x", some "y"⟩]
      (by decide) (by decide) (by decide) (by decide) (by decide) (by decide) (by decide)).2.1,
   (C4_disconnect_two_rooms
      [("A", [⟨"s", some "n"⟩]), ("B", [⟨"s", some "n"⟩, ⟨"x", some "y"⟩]),
        ("C", [⟨"x", some "y"⟩])] "s" "A" "B"
      [⟨"s", some "n"⟩] [⟨"s", some "n"⟩, ⟨"x", some "y"⟩]
      (by decide) (by decide) (by decide) (by decide) (by decide) (by decide) (by decide)).2.2⟩

/-- Whether the registry holds an entry for `c` after one event. -/
theorem hasEntry_stepUsers (users : List PresenceEntry) (c : String) (e : ConnEvent) :
    hasEntry c (stepUsers users e)
      = match e with
        | .connect d => if d = c then true else hasEntry c users
        | .disconnect d => if d = c then false else hasEntry c users := by
  cases e with
  | connect d =>
      by_cases h : d = c <;>
        simp [stepUsers, connectUser, hasEntry, List.any_append, h]
  | disconnect d =>
      by_cases h : d = c
      · subst h
        simp [stepUsers, disconnectUser, hasEntry, List.any_filter]
      · simp only [stepUsers, disconnectUser, hasEntry, List.any_filter, if_neg h]
        congr 1
        funext u
        by_cases hu : u.socketId = c
        · rw [hu]
          simp [Ne.symm h]
        · simp [hu]

/-- After a run of connect/disconnect events, a connection whose live status
ends false (per `liveAfter`) has no registry entry. -/
theorem hasEntry_runUsers_of_liveAfter (evs : List ConnEvent) :
    ∀ (users : List PresenceEntry) (c : String),
      liveAfter c (hasEntry c users) evs = false → hasEntry c (runUsers users evs) = false := by
  induction evs with
  | nil => intro users c h; simpa [liveAfter, runUsers] using h
  | cons e evs ih =>
      intro users c h
      have hstep : liveAfter c (hasEntry c (stepUsers users e)) evs = false := by
        rw [hasEntry_stepUsers]
        cases e with
        | connect d => simpa [liveAfter] using h
        | disconnect d => simpa [liveAfter] using h
      have := ih (stepUsers users e) c hstep
      simpa [runUsers, liveAfter] using this

/-- C5: for every sequence of connect/disconnect events in which every
connection that connects eventually disconnects (no connection's last event
leaves it live), running the sequence from the empty Connection Registry
leaves the registry (`onlineUsers`) empty. -/
theorem C5_registry_empty_after_disconnects (evs : List ConnEvent)
    (h : ∀ c : String, liveAfter c false evs = false) :
    runUsers [] evs = [] := by
  have hall : ∀ c : String, hasEntry c (runUsers [] evs) = false := by
    intro c
    exact hasEntry_runUsers_of_liveAfter evs [] c (by simpa [hasEntry] using h c)
  cases hrun : runUsers [] evs with
  | nil => rfl
  | cons u rest =>
      have := hall u.socketId
      rw [hrun] at this
      simp [hasEntry] at this

/-- C5 witness: two interleaved connections that both disconnect leave the
registry empty. -/
theorem C5_witness :
    runUsers [] [.connect "a", .connect "b", .disconnect "a", .disconnect "b"] = [] := by
  refine C5_registry_empty_after_disconnects _ ?_
  intro c
  by_cases h1 : "a" = c <;> by_cases h2 : "b" = c <;>
    simp [liveAfter, h1, h2]

/-- The `uuidModel` generator never returns the empty string. -/
theorem uuidModel_ne_empty (n : Nat) : uuidModel n ≠ "" := by
  intro h
  have hd : (uuidModel n).data = ("" : String).data := congrArg String.data h
  simp [uuidModel] at hd

/-- Distinct calls of `uuidModel` return distinct strings. -/
theorem uuidModel_injective : Function.Injective uuidModel := by
  intro a b h
  have hd : (uuidModel a).data.length = (uuidModel b).data.length := by rw [h]
  simpa [uuidModel] using hd

/-- The registry update of `newUser` (findIndex + in-place set / push)
agrees with overwrite-first-or-insert. -/
theorem newUser_update_eq (sid userId : String) :
    ∀ users : List PresenceEntry,
      (match users.findIdx? (fun u => u.socketId == sid) with
        | some i => users.set i ⟨sid, userId⟩
        | none => users ++ [⟨sid, userId⟩]) = overwriteFirstOrInsert users sid userId := by
  intro users
  induction users with
  | nil => simp [overwriteFirstOrInsert]
  | cons u t ih =>
      rw [List.findIdx?_cons]
      by_cases h : u.socketId = sid
      · have hb : (u.socketId == sid) = true := by simpa using h
        simp [hb, overwriteFirstOrInsert, h]
      · have hb : (u.socketId == sid) = false := by simpa using h
        rw [hb]
        rw [show (0 : Nat) + 1 = 0 + 1 from rfl, List.findIdx?_succ]
        cases ht : t.findIdx? (fun v => v.socketId == sid) with
        | none =>
            rw [ht] at ih
            simp only [] at ih
            simp [overwriteFirstOrInsert, h, ih]
        | some i =>
            rw [ht] at ih
            simp only [] at ih
            simp [overwriteFirstOrInsert, h, List.set_cons_succ, ih]

/-- C8: `identify` with an empty `userId` leaves the registry unchanged and
emits nothing (no-op law); with a non-empty `userId` it overwrites the
`userId` of the first entry for the connection when one exists, appends a
new entry otherwise, and emits the full updated registry as the
`usersOnline` broadcast. -/
theorem C8_identify_laws (users : List PresenceEntry) (sid userId : String) :
    (userId = "" → newUser users sid userId = (users, none))
    ∧ (userId ≠ "" →
        (newUser users sid userId).1 = overwriteFirstOrInsert users sid userId
        ∧ (newUser users sid userId).2 = some (overwriteFirstOrInsert users sid userId)) := by
  constructor
  · intro h
    simp [newUser, h]
  · intro h
    have key := newUser_update_eq sid userId users
    cases ht : users.findIdx? (fun u => u.socketId == sid) with
    | none =>
        rw [ht] at key
        simp only [ht] at key
        constructor <;> simp [newUser, h, ht, key]
    | some i =>
        rw [ht] at key
        simp only [ht] at key
        constructor <;> simp [newUser, h, ht, key]

/-- C8 witness: the no-op law and the overwrite case at a concrete registry. -/
theorem C8_witness :
    newUser [⟨"a", "old"⟩] "a" "" = ([⟨"a", "old"⟩], none)
    ∧ (newUser [⟨"a", "old"⟩] "a" "u1").1 = overwriteFirstOrInsert [⟨"a", "old"⟩] "a" "u1" :=
  ⟨(C8_identify_laws [⟨"a", "old"⟩] "a" "").1 rfl,
   ((C8_identify_laws [⟨"a", "old"⟩] "a" "u1").2 (by decide)).1⟩

/-- C9: the transcript line appended for a chat message is exactly
`[<ISO timestamp>] (chat) <author>: <text>\n`; the transcript file name is
derived from `roomId` and the author by replacing every character outside
`[a-zA-Z0-9-_]` with an underscore; and an append failure only adds a log
line — the `message` broadcast (room and payload) is identical whether or
not the append fails, so failure cannot affect delivery. -/
theorem C9_transcript_contract (fid : String) (now : Nat)
    (nowIso roomId user text : String) :
    (sendMessage fid now nowIso roomId user text true).transcriptEntry
      = "[" ++ nowIso ++ "] (chat) " ++ user ++ ": " ++ text ++ "\n"
    ∧ (roomId ≠ "" → user ≠ "" →
        (sendMessage fid now nowIso roomId user text true).transcriptFile
          = "transcript-" ++ sanitize roomId ++ "-" ++ sanitize user ++ ".txt")
    ∧ (∀ s : String, (sanitize s).data
        = s.data.map (fun c => if isSafeChar c then c else '_'))
    ∧ (∀ b : Bool,
        (sendMessage fid now nowIso roomId user text b).room
          = (sendMessage fid now nowIso roomId user text false).room
        ∧ (sendMessage fid now nowIso roomId user text b).payload
          = (sendMessage fid now nowIso roomId user text false).payload)
    ∧ (sendMessage fid now nowIso roomId user text true).logs ≠ [] := by
  refine ⟨rfl, ?_, fun s => rfl, fun b => ⟨rfl, rfl⟩, by simp [sendMessage]⟩
  intro hr hu
  simp [sendMessage, hr, hu]

/-- C9 witness: the transcript contract at a concrete message whose room
and author both contain characters the sanitizer must replace. -/
theorem C9_witness :
    (sendMessage "id0" 7 "2026-01-01T00:00:00.000Z" "room 1" "al ice" "hi" true).transcriptFile
      = "transcript-" ++ sanitize "room 1" ++ "-" ++ sanitize "al ice" ++ ".txt" :=
  (C9_transcript_contract "id0" 7 "2026-01-01T00:00:00.000Z" "room 1" "al ice" "hi").2.1
    (by decide) (by decide)

/-- C3 counterexample: the object emitted on the `message` event has keys
`id`, `user`, `text`, `timestamp` — the author's display name travels under
the key `user`, not `author` as the claim states. -/
theorem C3_counterexample :
    ((sendMessage "u0" 5 "t0" "r" "alice" "hi" false).payload.map Prod.fst)
      = ["id", "user", "text", "timestamp"]
    ∧ ((sendMessage "u0" 5 "t0" "r" "alice" "hi" false).payload.map Prod.fst)
      ≠ ["id", "author", "text", "timestamp"]
    ∧ "author" ∉ ((sendMessage "u0" 5 "t0" "r" "alice" "hi" false).payload.map Prod.fst) := by
  decide

/-- C3 (amended): for every sendMessage event, the payload broadcast on the
`message` event to room `r` is an object of shape
`{id, user, text, timestamp}` (the author value is carried under the key
`user`), where `id` is the freshly generated identifier — non-empty, and
distinct from the identifier of any other call — and the timestamp is the
clock value read inside the handler, which is at least the call time. -/
theorem C3_message_relay (gen : Nat → String) (hne : ∀ n, gen n ≠ "")
    (hinj : Function.Injective gen) (ctr callTime now : Nat) (hmono : callTime ≤ now)
    (nowIso roomId user text : String) (af : Bool) :
    ((sendMessage (gen ctr) now nowIso roomId user text af).payload.map Prod.fst)
      = ["id", "user", "text", "timestamp"]
    ∧ (sendMessage (gen ctr) now nowIso roomId user text af).room = roomId
    ∧ ((sendMessage (gen ctr) now nowIso roomId user text af).payload.lookup "id")
      = some (JVal.s (gen ctr))
    ∧ gen ctr ≠ ""
    ∧ ((sendMessage (gen ctr) now nowIso roomId user text af).payload.lookup "timestamp")
      = some (JVal.n now)
    ∧ callTime ≤ now
    ∧ ∀ ctr' : Nat, ctr' ≠ ctr → gen ctr' ≠ gen ctr := by
  refine ⟨rfl, rfl, ?_, hne ctr, ?_, hmono, fun ctr' hd heq => hd (hinj heq)⟩
  · simp [sendMessage, List.lookup]
  · simp [sendMessage, List.lookup]

/-- C3 witness: the amended relay contract at a concrete generator and
message. -/
theorem C3_witness :
    ((sendMessage (uuidModel 0) 5 "iso" "r" "alice" "hi" false).payload.map Prod.fst)
      = ["id", "user", "text", "timestamp"]
    ∧ uuidModel 0 ≠ "" :=
  ⟨(C3_message_relay uuidModel uuidModel_ne_empty uuidModel_injective 0 3 5 (by decide)
      "iso" "r" "alice" "hi" false).1,
   (C3_message_relay uuidModel uuidModel_ne_empty uuidModel_injective 0 3 5 (by decide)
      "iso" "r" "alice" "hi" false).2.2.2.1⟩

/-- C1 witness: the amended join behaviour at a concrete table with both
payload fields missing. -/
theorem C1_witness :
    (joinRoom [("r", [⟨"x", some "B"⟩])] "s1" none none true).table
      ≠ [("r", [⟨"x", some "B"⟩])] :=
  (C1_join_never_noop [("r", [⟨"x", some "B"⟩])] "s1" none none true).2.2.2
